import Mathlib

/-!
Verification of the terraform-provider-contentstack repository against its
natural-language specification.  The Go source under `internal/provider` is
shallowly embedded: pure helper functions become Lean functions, Go structs
become structures, `error` values become an inductive of the error shapes the
provider distinguishes.  The SDK's transport core (retry policy, backoff,
token-bucket rate limiter, package `management` of contentstack-go-sdk) is not
part of this repository's source tree; those parts are modelled from the
specification's own words, and each such definition says so in its doc comment.
-/

namespace Contentstack

/-! ## Provider configuration (provider.go) -/

/-- Attribute names of the provider schema, from `GetSchema` in
`internal/provider/provider.go` (the version with rate limiting). -/
def providerSchemaAttributes : List String :=
  ["base_url", "api_key", "management_token", "auth_token", "branch",
   "rate_limit", "rate_burst", "max_retries"]

/-- The `providerData` struct of provider.go: the decoded provider
configuration.  `types.String`/`types.Float64`/`types.Int64` values are
embedded as their payloads; the float64 rate limit is embedded as a rational. -/
structure ProviderData where
  baseURL : String
  authToken : String
  apiKey : String
  managementToken : String
  branch : String
  rateLimit : ℚ
  rateBurst : Int
  maxRetries : Int

/-- The fields of `management.ClientConfig` that `Configure` fills from the
provider configuration (the HTTP client itself is opaque and omitted). -/
structure ClientConfig where
  baseURL : String
  authToken : String
  rateLimit : ℚ
  rateBurst : Int
  maxRetries : Int

/-- The `management.StackAuth` struct filled by `Configure`. -/
structure StackAuth where
  apiKey : String
  managementToken : String
  branch : String

/-- The client-config assignment performed by `Configure` in provider.go:
`BaseURL`, `AuthToken`, `RateLimit`, `RateBurst`, `MaxRetries` are copied from
the decoded configuration (`int(...)` on an int64 is the identity on 64-bit
targets, so the two integer fields pass through unchanged). -/
def buildClientConfig (config : ProviderData) : ClientConfig :=
  { baseURL := config.baseURL
    authToken := config.authToken
    rateLimit := config.rateLimit
    rateBurst := config.rateBurst
    maxRetries := config.maxRetries }

/-- The stack-auth assignment performed by `Configure` in provider.go. -/
def buildStackAuth (config : ProviderData) : StackAuth :=
  { apiKey := config.apiKey
    managementToken := config.managementToken
    branch := config.branch }

/-! ## Diagnostics and errors (errors.go) -/

/-- Severity of a terraform diagnostic. -/
inductive Severity where
  | error
  | warning
deriving DecidableEq

/-- One terraform diagnostic: severity, summary, detail, and the attribute
path when the diagnostic is attached to an attribute. -/
structure Diagnostic where
  severity : Severity
  summary : String
  detail : String
  attributePath : Option String := none
deriving DecidableEq

/-- The error shapes the provider distinguishes: a structured
`*management.ErrorMessage` (remote error payload with a message, per-field
errors and a numeric error code) or any other Go `error`, carried by the text
its `Error()` method returns. -/
inductive GoError where
  | errorMessage (errorMessage : String) (errors : List (String × List String))
      (errorCode : Int)
  | other (message : String)
deriving DecidableEq

/-- `processRemoteError` of errors.go: a `*management.ErrorMessage` yields one
error diagnostic whose summary is the remote message and whose detail joins
the per-field errors (each rendered `" %s - %s"`) with newlines; any other
error yields one error diagnostic carrying its message as both summary and
detail. -/
def processRemoteError : GoError → List Diagnostic
  | .errorMessage msg errs _ =>
      let lines := errs.foldl
        (fun acc p => acc ++ p.2.map (fun m => " " ++ p.1 ++ " - " ++ m)) []
      [{ severity := .error, summary := msg,
         detail := String.intercalate "\n" lines }]
  | .other m => [{ severity := .error, summary := m, detail := m }]

/-- `IsNotFoundError` of errors.go, on a possibly-nil error value. -/
def IsNotFoundError : Option GoError → Bool
  | none => false
  | some (.errorMessage _ _ code) => code == 404
  | some (.other _) => false

/-- The branch the resource `Read` handlers take on a fetch error: the
not-found branch when `IsNotFoundError` holds, otherwise `processRemoteError`. -/
inductive ReadErrorBranch where
  | notFound
  | remote
deriving DecidableEq

/-- The error dispatch in the `Read` handlers (resource_environment.go and the
webhook resource): `if IsNotFoundError(err) { ... } else { processRemoteError }`. -/
def readErrorBranch (e : GoError) : ReadErrorBranch :=
  if IsNotFoundError (some e) then .notFound else .remote

/-! ## processResponse (helpers) -/

/-- An API response value as `processResponse` sees it through reflection:
`branches = none` models a response type without a `Branches` field,
`branches = some bs` a response whose `Branches` field holds `bs`; `rest`
stands for every other field of the response. -/
structure BranchedResponse where
  branches : Option (List String)
  rest : String
deriving DecidableEq

/-- `processResponse` of the helpers file: when the response type has a
`Branches` field and its value is empty, copy the input's branches into the
response and emit one warning on attribute `branches`; otherwise leave the
response alone and report no diagnostics.  `inputBranches` is the `Branches`
field of the input value. -/
def processResponse (resp : BranchedResponse) (inputBranches : List String) :
    BranchedResponse × List Diagnostic :=
  match resp.branches with
  | none => (resp, [])
  | some bs =>
      if bs.length = 0 then
        ({ resp with branches := some inputBranches },
         [{ severity := .warning,
            summary := "Branches are not part of your plan.",
            detail := "Branches are not part of your plan. Please contact support@contentstack.com to upgrade your plan.",
            attributePath := some "branches" }])
      else (resp, [])

/-! ## Webhook destinations (webhook resource) -/

/-- A custom header of a webhook destination (`management.WebhookHeader`,
equally the payload of `WebhookCustomHeaderData`). -/
structure WebhookHeader where
  name : String
  value : String
deriving DecidableEq

/-- `management.WebhookDestination`: a destination as the API returns it. -/
structure WebhookDestination where
  targetURL : String
  httpBasicAuth : String
  httpBasicPassword : String
  customHeaders : List WebhookHeader
deriving DecidableEq

/-- `WebhookDestinationData`: a destination of the planned terraform state
(`types.String` values embedded as their payloads). -/
structure WebhookDestinationData where
  targetURL : String
  httpBasicAuth : String
  httpBasicPassword : String
  customHeaders : List WebhookHeader
deriving DecidableEq

/-- `WebhookDestinationSlice.FindByTargetURLAndHttpBasicAuth`: the first
planned destination whose target URL and basic-auth user match, if any. -/
def FindByTargetURLAndHttpBasicAuth (s : List WebhookDestinationData)
    (t a : String) : Option WebhookDestinationData :=
  s.find? fun d => d.targetURL == t && d.httpBasicAuth == a

/-- `copyHttpBasicPasswords` of the webhook helpers: for each destination
returned by the API, look up the planned destination with the same target URL
and basic-auth user and take its password (the API never echoes passwords
back); the first destination without a planned counterpart aborts with an
error. -/
def copyHttpBasicPasswords : List WebhookDestination →
    List WebhookDestinationData → Except String (List WebhookDestination)
  | [], _ => .ok []
  | d :: rest, data =>
      match FindByTargetURLAndHttpBasicAuth data d.targetURL d.httpBasicAuth with
      | none => .error ("d " ++ d.targetURL ++ " not found in planned state")
      | some planned =>
          match copyHttpBasicPasswords rest data with
          | .ok cd =>
              .ok ({ d with httpBasicPassword := planned.httpBasicPassword } :: cd)
          | .error e => .error e

/-! ## Retry policy and resilient transport

Modelled from the spec: the SDK's `management` package, which hosts the
retryable transport, is not part of this repository's source tree. -/

/-- Modelled from the spec: the outcome of one physical attempt as the retry
policy of the SDK's resilient transport (not under the repository source)
sees it — "the raw transport error (network failure, timeout) OR a received
response with a status code". -/
inductive Outcome where
  | transportError (message : String)
  | response (status : Nat)
deriving DecidableEq

/-- Modelled from the spec: the retry decision of the SDK transport (not under
the repository source) — "Network/transport-level error (no response
received): retryable ... Response with status 429 (rate-limited by remote):
retryable ... Any other response status (including all other 4xx/5xx):
terminal". -/
def isRetryable : Outcome → Bool
  | .transportError _ => true
  | .response status => status == 429

/-- Modelled from the spec: the attempt loop of the SDK's resilient transport
(not under the repository source) — "loop up to max_retries + 1 total
attempts ... If terminal, return immediately.  If retryable and attempts
remain, continue.  If retryable but attempts exhausted, return the last
outcome."  `attemptOutcome i` is the outcome of physical attempt `i`
(0-indexed); the result pairs the number of attempts made with the outcome
returned to the caller. -/
def sendLoop (attemptOutcome : Nat → Outcome) : Nat → Nat → Nat × Outcome
  | 0, i => (i + 1, attemptOutcome i)
  | remaining + 1, i =>
      let o := attemptOutcome i
      if isRetryable o then sendLoop attemptOutcome remaining (i + 1)
      else (i + 1, o)

/-- Modelled from the spec: `send` of the resilient transport (not under the
repository source), allowing `maxRetries` retries after the first attempt. -/
def send (maxRetries : Nat) (attemptOutcome : Nat → Outcome) : Nat × Outcome :=
  sendLoop attemptOutcome maxRetries 0

/-- Modelled from the spec: the backoff schedule of the SDK transport (not
under the repository source) — "Attempt n (1-indexed) waits
min(ceiling, floor * 2^(n-1))"; the provider schema documents the default
schedule "1s, 2s, 4s, 8s, 16s, capped at 30s".  Waits are in seconds. -/
def backoffWait (floor ceiling n : Nat) : Nat :=
  min ceiling (floor * 2 ^ (n - 1))

/-! ## Token-bucket rate limiter

Modelled from the spec: the SDK's rate limiter is not part of this
repository's source tree.  Times and token counts are rationals. -/

/-- Modelled from the spec: the rate limiter's configuration (not under the
repository source) — "rate in requests/second (0 disables limiting entirely)";
burst is the maximum instantaneous token reserve. -/
structure LimiterConfig where
  rate : ℚ
  burst : ℚ
deriving DecidableEq

/-- Modelled from the spec: the rate limiter's mutable state (not under the
repository source) — "current token count (float, bounded [0, burst]),
last-refill timestamp". -/
structure LimiterState where
  tokens : ℚ
  lastRefill : ℚ
deriving DecidableEq

/-- Modelled from the spec: the lazy refill step (not under the repository
source) — "compute elapsed time since last refill, add elapsed * rate tokens
(capped at burst), update last-refill timestamp". -/
def refill (cfg : LimiterConfig) (s : LimiterState) (now : ℚ) : LimiterState :=
  { tokens := min cfg.burst (s.tokens + (now - s.lastRefill) * cfg.rate)
    lastRefill := now }

/-- Modelled from the spec: one acquisition (not under the repository source).
With rate 0 limiting is disabled and the call returns at once without touching
the bucket.  Otherwise refill, then either consume a token immediately (if at
least one is available) or wait exactly the time the deficit needs to
replenish, refill again on wake and consume.  The result pairs the wait time
with the post-acquisition state. -/
def acquire (cfg : LimiterConfig) (s : LimiterState) (now : ℚ) :
    ℚ × LimiterState :=
  if cfg.rate = 0 then (0, s)
  else
    let s1 := refill cfg s now
    if 1 ≤ s1.tokens then (0, { s1 with tokens := s1.tokens - 1 })
    else
      let w := (1 - s1.tokens) / cfg.rate
      let s2 := refill cfg s1 (now + w)
      (w, { s2 with tokens := s2.tokens - 1 })

/-- Modelled from the spec: `n` back-to-back acquisitions issued at the same
instant `now`, returning the list of their wait times and the final state. -/
def acquireRun (cfg : LimiterConfig) (now : ℚ) :
    Nat → LimiterState → List ℚ × LimiterState
  | 0, s => ([], s)
  | n + 1, s =>
      let ws := acquireRun cfg now n (acquire cfg s now).2
      ((acquire cfg s now).1 :: ws.1, ws.2)

/-! ## Helper lemmas -/

/-- The accumulating loop of `processRemoteError` flattens the per-field
error lists in order. -/
lemma foldl_append_map_eq_bind {α β : Type} (f : α → List β) :
    ∀ (l : List α) (acc : List β),
      l.foldl (fun a p => a ++ f p) acc = acc ++ l.flatMap f := by
  intro l
  induction l with
  | nil => intro acc; simp
  | cons x xs ih => intro acc; simp [ih, List.append_assoc]

/-- When every attempt is retryable, the send loop runs through all its
remaining attempts and returns the outcome of the last one. -/
lemma sendLoop_all_retryable (attemptOutcome : Nat → Outcome)
    (h : ∀ i, isRetryable (attemptOutcome i) = true) :
    ∀ remaining i, sendLoop attemptOutcome remaining i =
      (i + remaining + 1, attemptOutcome (i + remaining)) := by
  intro remaining
  induction remaining with
  | zero => intro i; simp [sendLoop]
  | succ r ih =>
      intro i
      have harith : i + 1 + r = i + (r + 1) := by omega
      simp [sendLoop, h i, ih (i + 1), harith]

/-- The destination finder succeeds exactly when some planned destination
carries the same target URL and basic-auth user. -/
lemma find_isSome_iff (data : List WebhookDestinationData) (t a : String) :
    (FindByTargetURLAndHttpBasicAuth data t a).isSome = true ↔
      ∃ p ∈ data, p.targetURL = t ∧ p.httpBasicAuth = a := by
  simp [FindByTargetURLAndHttpBasicAuth, List.find?_isSome]

/-- What the finder returns matches the sought target URL and user. -/
lemma find_some_fields (data : List WebhookDestinationData) (t a : String)
    (p : WebhookDestinationData)
    (h : FindByTargetURLAndHttpBasicAuth data t a = some p) :
    p.targetURL = t ∧ p.httpBasicAuth = a := by
  have := List.find?_some h
  simpa using this

/-- When every destination has a planned counterpart, the copy succeeds and
rewrites exactly the passwords. -/
lemma copyHttpBasicPasswords_ok_of_matches (data : List WebhookDestinationData) :
    ∀ wd : List WebhookDestination,
      (∀ d ∈ wd, ∃ p ∈ data,
        p.targetURL = d.targetURL ∧ p.httpBasicAuth = d.httpBasicAuth) →
      ∃ cd, copyHttpBasicPasswords wd data = .ok cd ∧
        cd.length = wd.length ∧
        ∀ i (hi : i < wd.length), ∃ planned,
          FindByTargetURLAndHttpBasicAuth data (wd.get ⟨i, hi⟩).targetURL
              (wd.get ⟨i, hi⟩).httpBasicAuth = some planned ∧
          planned.targetURL = (wd.get ⟨i, hi⟩).targetURL ∧
          planned.httpBasicAuth = (wd.get ⟨i, hi⟩).httpBasicAuth ∧
          cd[i]? = some { wd.get ⟨i, hi⟩ with
            httpBasicPassword := planned.httpBasicPassword } := by
  intro wd
  induction wd with
  | nil =>
      intro _
      exact ⟨[], rfl, rfl, fun i hi => absurd hi (by simp)⟩
  | cons d rest ih =>
      intro hall
      have hd : (FindByTargetURLAndHttpBasicAuth data d.targetURL
          d.httpBasicAuth).isSome = true :=
        (find_isSome_iff data _ _).mpr (hall d (by simp))
      obtain ⟨planned, hp⟩ := Option.isSome_iff_exists.mp hd
      obtain ⟨cd, hcd, hlen, hidx⟩ :=
        ih (fun x hx => hall x (List.mem_cons_of_mem _ hx))
      obtain ⟨hpt, hpa⟩ := find_some_fields data _ _ planned hp
      refine ⟨{ d with httpBasicPassword := planned.httpBasicPassword } :: cd,
        ?_, ?_, ?_⟩
      · simp [copyHttpBasicPasswords, hp, hcd]
      · simpa using hlen
      · intro i hi
        match i with
        | 0 => exact ⟨planned, hp, hpt, hpa, by simp⟩
        | Nat.succ j =>
            have hj : j < rest.length := by
              simpa [Nat.succ_lt_succ_iff] using hi
            obtain ⟨pl, h1, h2, h3, h4⟩ := hidx j hj
            exact ⟨pl, h1, h2, h3, by simpa using h4⟩

/-- A successful copy certifies that every destination had a planned
counterpart. -/
lemma copyHttpBasicPasswords_ok_all_found (data : List WebhookDestinationData) :
    ∀ (wd : List WebhookDestination) (cd : List WebhookDestination),
      copyHttpBasicPasswords wd data = .ok cd →
      ∀ d ∈ wd, (FindByTargetURLAndHttpBasicAuth data d.targetURL
        d.httpBasicAuth).isSome = true := by
  intro wd
  induction wd with
  | nil => intro cd _ d hd; exact absurd hd (by simp)
  | cons d rest ih =>
      intro cd hok x hx
      cases hfind : FindByTargetURLAndHttpBasicAuth data d.targetURL
          d.httpBasicAuth with
      | none => simp [copyHttpBasicPasswords, hfind] at hok
      | some planned =>
          rcases List.mem_cons.mp hx with rfl | hxr
          · simp [hfind]
          · cases hrest : copyHttpBasicPasswords rest data with
            | error e => simp [copyHttpBasicPasswords, hfind, hrest] at hok
            | ok cd2 => exact ih cd2 hrest x hxr

/-- Refilling at the instant of the last refill with at least one token in
the bucket consumes one token without waiting. -/
lemma acquire_has_token (cfg : LimiterConfig) (t now : ℚ)
    (hrate : cfg.rate ≠ 0) (h1 : 1 ≤ t) (hb : t ≤ cfg.burst) :
    acquire cfg { tokens := t, lastRefill := now } now =
      (0, { tokens := t - 1, lastRefill := now }) := by
  have hre : refill cfg { tokens := t, lastRefill := now } now =
      { tokens := t, lastRefill := now } := by
    simp [refill, min_eq_right hb]
  simp [acquire, hrate, hre, h1]

/-- An acquisition from an empty bucket at the instant of the last refill
blocks for exactly the one-token deficit, 1/rate, and leaves the bucket
empty again. -/
lemma acquire_empty (cfg : LimiterConfig) (now : ℚ)
    (hrate : 0 < cfg.rate) (hburst : 1 ≤ cfg.burst) :
    acquire cfg { tokens := 0, lastRefill := now } now =
      (1 / cfg.rate, { tokens := 0, lastRefill := now + 1 / cfg.rate }) := by
  have hne : cfg.rate ≠ 0 := ne_of_gt hrate
  have hb0 : (0:ℚ) ≤ cfg.burst := by linarith
  have hre : refill cfg { tokens := 0, lastRefill := now } now =
      { tokens := 0, lastRefill := now } := by
    simp [refill, min_eq_right hb0]
  have hnot : ¬ (1:ℚ) ≤ (0:ℚ) := by norm_num
  simp only [acquire, if_neg hne, hre, if_neg hnot]
  have hw : (1 - (0:ℚ)) / cfg.rate = 1 / cfg.rate := by norm_num
  have hcancel : cfg.rate⁻¹ * cfg.rate = 1 := inv_mul_cancel₀ hne
  simp [refill, hw, add_sub_cancel_left, hcancel, min_eq_right hburst]

/-- Draining a bucket that holds at least k tokens: k back-to-back
acquisitions all wait zero and leave k fewer tokens. -/
lemma acquireRun_full (cfg : LimiterConfig) (now : ℚ) (hrate : cfg.rate ≠ 0) :
    ∀ (k : Nat) (t : ℚ), (k : ℚ) ≤ t → t ≤ cfg.burst →
      acquireRun cfg now k { tokens := t, lastRefill := now } =
        (List.replicate k 0, { tokens := t - k, lastRefill := now }) := by
  intro k
  induction k with
  | zero => intro t _ _; simp [acquireRun]
  | succ j ih =>
      intro t hk hb
      have hj0 : (0:ℚ) ≤ (j : ℚ) := by positivity
      have hk1 : (j : ℚ) + 1 ≤ t := by push_cast at hk; linarith
      have h1 : (1:ℚ) ≤ t := by linarith
      have hstep := acquire_has_token cfg t now hrate h1 hb
      have hnext := ih (t - 1) (by linarith) (by linarith)
      have harith : t - 1 - (j : ℚ) = t - ((j : ℚ) + 1) := by ring
      simp [acquireRun, hstep, hnext, List.replicate_succ, harith]

/-- Splitting a run of acquisitions. -/
lemma acquireRun_add (cfg : LimiterConfig) (now : ℚ) :
    ∀ (m n : Nat) (s : LimiterState),
      acquireRun cfg now (m + n) s =
        ((acquireRun cfg now m s).1 ++
          (acquireRun cfg now n (acquireRun cfg now m s).2).1,
         (acquireRun cfg now n (acquireRun cfg now m s).2).2) := by
  intro m
  induction m with
  | zero => intro n s; simp [acquireRun]
  | succ j ih =>
      intro n s
      have hsh : j + 1 + n = (j + n) + 1 := by omega
      rw [hsh]
      simp [acquireRun, ih]

/-- The burst-admission scenario: B+1 acquisitions issued at one instant
against a full bucket of capacity B admit the first B immediately and make
the last wait exactly 1/rate. -/
lemma acquireRun_burst_scenario (R : ℚ) (B : Nat) (now : ℚ)
    (hrate : 0 < R) (hB : 1 ≤ B) :
    (acquireRun { rate := R, burst := (B : ℚ) } now (B + 1)
        { tokens := (B : ℚ), lastRefill := now }).1 =
      List.replicate B 0 ++ [1 / R] := by
  have hne : R ≠ 0 := ne_of_gt hrate
  have hburst : (1:ℚ) ≤ (B:ℚ) := by exact_mod_cast hB
  have hfull := acquireRun_full { rate := R, burst := (B : ℚ) } now hne B
    (B : ℚ) le_rfl le_rfl
  rw [acquireRun_add, hfull]
  have hzero : (B:ℚ) - (B:ℚ) = 0 := sub_self _
  simp only [hzero]
  simp [acquireRun, acquire_empty { rate := R, burst := (B : ℚ) } now hrate hburst]

/-- Bounds on the token count after one acquisition: the count stays within
[0, burst]. -/
lemma acquire_tokens_bounds (cfg : LimiterConfig) (s : LimiterState) (now : ℚ)
    (hrate : 0 < cfg.rate) (hburst : 1 ≤ cfg.burst) :
    0 ≤ (acquire cfg s now).2.tokens ∧
      (acquire cfg s now).2.tokens ≤ cfg.burst := by
  have hne : cfg.rate ≠ 0 := ne_of_gt hrate
  have hs1b : (refill cfg s now).tokens ≤ cfg.burst := min_le_left _ _
  by_cases h1 : 1 ≤ (refill cfg s now).tokens
  · have hstep : (acquire cfg s now).2.tokens = (refill cfg s now).tokens - 1 := by
      simp only [acquire, if_neg hne, if_pos h1]
    rw [hstep]
    exact ⟨by linarith, by linarith⟩
  · have hcancel : (1 - (refill cfg s now).tokens) / cfg.rate * cfg.rate =
        1 - (refill cfg s now).tokens := div_mul_cancel₀ _ hne
    have hstep : (acquire cfg s now).2.tokens =
        min cfg.burst ((refill cfg s now).tokens +
          ((now + (1 - (refill cfg s now).tokens) / cfg.rate) - now) *
            cfg.rate) - 1 := by
      simp only [acquire, if_neg hne, if_neg h1]
      rfl
    rw [hstep, add_sub_cancel_left, hcancel]
    have hone : (refill cfg s now).tokens + (1 - (refill cfg s now).tokens) = 1 := by
      ring
    rw [hone, min_eq_right hburst]
    norm_num
    linarith

end Contentstack

/-! ## Claim theorems -/

namespace Contentstack

/-- Claim C1, counterexample: the provider schema recognizes no
`retry_wait_min` or `retry_wait_max` option. -/
theorem provider_schema_has_no_retry_wait_options :
    "retry_wait_min" ∉ providerSchemaAttributes ∧
    "retry_wait_max" ∉ providerSchemaAttributes := by decide

/-- Claim C1 (amended): the provider's inbound configuration recognizes
exactly base_url, auth_token, api_key, management_token, branch, rate_limit,
rate_burst and max_retries — retry_wait_min and retry_wait_max are not
provider options — and Configure passes each supplied value through unchanged
into the client config (base_url, auth_token, rate_limit, rate_burst,
max_retries) and the stack auth (api_key, management_token, branch). -/
theorem provider_config_recognized_options_passthrough (c : ProviderData) :
    providerSchemaAttributes.Perm
      ["base_url", "auth_token", "api_key", "management_token", "branch",
       "rate_limit", "rate_burst", "max_retries"] ∧
    (buildClientConfig c).baseURL = c.baseURL ∧
    (buildClientConfig c).authToken = c.authToken ∧
    (buildClientConfig c).rateLimit = c.rateLimit ∧
    (buildClientConfig c).rateBurst = c.rateBurst ∧
    (buildClientConfig c).maxRetries = c.maxRetries ∧
    (buildStackAuth c).apiKey = c.apiKey ∧
    (buildStackAuth c).managementToken = c.managementToken ∧
    (buildStackAuth c).branch = c.branch :=
  ⟨by decide, rfl, rfl, rfl, rfl, rfl, rfl, rfl, rfl⟩

/-- Claim C2: the retry decision classifies a transport-level error as
retryable, a 429 response as retryable, and a response with any other status
as terminal. -/
theorem retryPolicy_classification (m : String) (s : Nat) :
    isRetryable (.transportError m) = true ∧
    isRetryable (.response 429) = true ∧
    (s ≠ 429 → isRetryable (.response s) = false) := by
  refine ⟨rfl, rfl, fun h => ?_⟩
  simp [isRetryable, h]

/-- Claim C3: when every attempt yields a retryable outcome, send makes
exactly maxRetries + 1 attempts and returns the last attempt's outcome
unmodified. -/
theorem send_retryable_exhausts_attempts (maxRetries : Nat)
    (attemptOutcome : Nat → Outcome)
    (h : ∀ i, isRetryable (attemptOutcome i) = true) :
    send maxRetries attemptOutcome =
      (maxRetries + 1, attemptOutcome maxRetries) := by
  simpa [send] using sendLoop_all_retryable attemptOutcome h maxRetries 0

/-- Claim C3, witness: with maxRetries = 3 and a 429 on every attempt, send
makes 4 attempts and returns the 429 response. -/
theorem send_retryable_exhausts_attempts_witness :
    send 3 (fun _ => Outcome.response 429) = (4, Outcome.response 429) :=
  send_retryable_exhausts_attempts 3 (fun _ => Outcome.response 429)
    (fun _ => rfl)

/-- Claim C4: the computed backoff wait is min(ceiling, floor * 2^(n-1)),
non-decreasing in the attempt number, bounded by the ceiling, and with the
default bounds the first wait is 1s and no wait exceeds 30s. -/
theorem backoffWait_formula_monotone_bounded (floor ceiling n : Nat)
    (h : 1 ≤ n) :
    backoffWait floor ceiling n = min ceiling (floor * 2 ^ (n - 1)) ∧
    backoffWait floor ceiling n ≤ backoffWait floor ceiling (n + 1) ∧
    backoffWait floor ceiling n ≤ ceiling ∧
    backoffWait 1 30 1 = 1 ∧
    backoffWait 1 30 n ≤ 30 := by
  refine ⟨rfl, ?_, Nat.min_le_left _ _, rfl, Nat.min_le_left _ _⟩
  unfold backoffWait
  exact min_le_min (le_refl _)
    (Nat.mul_le_mul_left _ (Nat.pow_le_pow_right (by norm_num) (by omega)))

/-- Claim C4, witness: the backoff formula, monotonicity and bounds at
attempt 3 with the default floor 1s and ceiling 30s. -/
theorem backoffWait_formula_monotone_bounded_witness :
    backoffWait 1 30 3 = min 30 (1 * 2 ^ (3 - 1)) ∧
    backoffWait 1 30 3 ≤ backoffWait 1 30 (3 + 1) ∧
    backoffWait 1 30 3 ≤ 30 ∧
    backoffWait 1 30 1 = 1 ∧
    backoffWait 1 30 3 ≤ 30 :=
  backoffWait_formula_monotone_bounded 1 30 3 (by decide)

/-- Claim C5: for a limiter with positive rate and burst of at least one
token, the token count stays within [0, burst] after a refill step and after
a full acquisition step, and B+1 acquisitions issued at one instant against a
full bucket of capacity B admit the first B with zero wait and make the last
wait exactly 1/rate. -/
theorem tokenBucket_invariant_and_burst_admission (cfg : LimiterConfig)
    (s : LimiterState) (now : ℚ)
    (hrate : 0 < cfg.rate) (hburst : 1 ≤ cfg.burst)
    (htok0 : 0 ≤ s.tokens) (htime : s.lastRefill ≤ now) :
    (0 ≤ (refill cfg s now).tokens ∧ (refill cfg s now).tokens ≤ cfg.burst) ∧
    (0 ≤ (acquire cfg s now).2.tokens ∧
      (acquire cfg s now).2.tokens ≤ cfg.burst) ∧
    (∀ B : ℕ, 1 ≤ B →
      (acquireRun { rate := cfg.rate, burst := (B : ℚ) } now (B + 1)
          { tokens := (B : ℚ), lastRefill := now }).1 =
        List.replicate B 0 ++ [1 / cfg.rate]) := by
  refine ⟨⟨?_, min_le_left _ _⟩,
    acquire_tokens_bounds cfg s now hrate hburst,
    fun B hB => acquireRun_burst_scenario cfg.rate B now hrate hB⟩
  have hb0 : (0:ℚ) ≤ cfg.burst := by linarith
  have helapsed : 0 ≤ (now - s.lastRefill) * cfg.rate :=
    mul_nonneg (by linarith) hrate.le
  exact le_min hb0 (by linarith)

/-- Claim C5, witness: the bounds and the burst-admission scenario for a
limiter with rate 2 and burst 10, starting from 5 tokens. -/
theorem tokenBucket_invariant_and_burst_admission_witness :
    (0 ≤ (refill { rate := 2, burst := 10 }
        { tokens := 5, lastRefill := 0 } 1).tokens ∧
      (refill { rate := 2, burst := 10 }
        { tokens := 5, lastRefill := 0 } 1).tokens ≤ 10) ∧
    (0 ≤ (acquire { rate := 2, burst := 10 }
        { tokens := 5, lastRefill := 0 } 1).2.tokens ∧
      (acquire { rate := 2, burst := 10 }
        { tokens := 5, lastRefill := 0 } 1).2.tokens ≤ 10) ∧
    (∀ B : ℕ, 1 ≤ B →
      (acquireRun { rate := 2, burst := (B : ℚ) } 1 (B + 1)
          { tokens := (B : ℚ), lastRefill := 1 }).1 =
        List.replicate B 0 ++ [1 / 2]) :=
  tokenBucket_invariant_and_burst_admission { rate := 2, burst := 10 }
    { tokens := 5, lastRefill := 0 } 1 (by norm_num) (by norm_num)
    (by norm_num) (by norm_num)

/-- Claim C6: with rate 0, rate limiting is disabled — an acquisition waits
zero time and leaves the limiter state untouched, whatever the burst setting
and call instant. -/
theorem acquire_rate_zero_never_blocks (cfg : LimiterConfig)
    (s : LimiterState) (now : ℚ) (h : cfg.rate = 0) :
    acquire cfg s now = (0, s) := by
  simp [acquire, h]

/-- Claim C6, witness: a disabled limiter admits the call immediately. -/
theorem acquire_rate_zero_never_blocks_witness :
    acquire { rate := 0, burst := 10 } { tokens := 0, lastRefill := 0 } 5 =
      (0, { tokens := 0, lastRefill := 0 }) :=
  acquire_rate_zero_never_blocks _ _ _ rfl

/-- Claim C7: every error yields exactly one error diagnostic; a structured
remote error payload is formatted with the remote message as summary and the
newline-joined per-field errors as detail, while any other error carries its
message as both summary and detail. -/
theorem processRemoteError_single_diagnostic_formats (e : GoError) :
    ∃ d, processRemoteError e = [d] ∧ d.severity = .error ∧
      (∀ msg errs code, e = .errorMessage msg errs code →
        d.summary = msg ∧
        d.detail = String.intercalate "\n"
          (errs.flatMap fun p => p.2.map fun m => " " ++ p.1 ++ " - " ++ m)) ∧
      (∀ msg, e = .other msg → d.summary = msg ∧ d.detail = msg) := by
  cases e with
  | errorMessage msg errs code =>
      refine ⟨_, rfl, rfl, ?_, ?_⟩
      · rintro msg2 errs2 code2 ⟨rfl, rfl, rfl⟩
        refine ⟨rfl, ?_⟩
        simp [processRemoteError, foldl_append_map_eq_bind]
      · rintro msg2 h
        exact absurd h (by simp)
  | other m =>
      refine ⟨_, rfl, rfl, ?_, ?_⟩
      · rintro msg2 errs2 code2 h
        exact absurd h (by simp)
      · rintro msg2 ⟨rfl⟩
        exact ⟨rfl, rfl⟩

/-- Claim C9: IsNotFoundError is true exactly on a non-nil structured remote
error with code 404 — false for nil and for every other error — and the Read
handlers' not-found branch is taken exactly in that case. -/
theorem isNotFoundError_iff_remote_404 (e : Option GoError) :
    (IsNotFoundError e = true ↔
      ∃ msg errs, e = some (.errorMessage msg errs 404)) ∧
    IsNotFoundError none = false ∧
    (∀ err : GoError, readErrorBranch err = .notFound ↔
      ∃ msg errs, err = .errorMessage msg errs 404) := by
  have key : ∀ e0 : Option GoError, IsNotFoundError e0 = true ↔
      ∃ msg errs, e0 = some (.errorMessage msg errs 404) := by
    intro e0
    match e0 with
    | none => simp [IsNotFoundError]
    | some (.errorMessage msg errs code) =>
        constructor
        · intro h
          have hc : code = 404 := by simpa [IsNotFoundError] using h
          exact ⟨msg, errs, by rw [hc]⟩
        · rintro ⟨msg2, errs2, h⟩
          obtain ⟨rfl, rfl, rfl⟩ : msg = msg2 ∧ errs = errs2 ∧ code = 404 := by
            simpa using h
          simp [IsNotFoundError]
    | some (.other m) => simp [IsNotFoundError]
  refine ⟨key e, rfl, fun err => ?_⟩
  rw [readErrorBranch]
  constructor
  · intro h
    have : IsNotFoundError (some err) = true := by
      by_contra hn
      simp [hn] at h
    obtain ⟨msg, errs, hsome⟩ := (key (some err)).mp this
    exact ⟨msg, errs, by simpa using hsome⟩
  · rintro ⟨msg, errs, rfl⟩
    have : IsNotFoundError (some (GoError.errorMessage msg errs 404)) = true :=
      (key _).mpr ⟨msg, errs, rfl⟩
    simp [this]

/-- Claim C10: a response without a Branches field, or with a non-empty one,
passes through processResponse untouched with no diagnostics; a response with
an empty Branches field gets the input's branches copied in, every other field
unchanged, and exactly one warning on the branches attribute. -/
theorem processResponse_branches_frame (resp : BranchedResponse)
    (inputBranches : List String) :
    (resp.branches = none → processResponse resp inputBranches = (resp, [])) ∧
    (∀ bs, resp.branches = some bs → bs ≠ [] →
      processResponse resp inputBranches = (resp, [])) ∧
    (resp.branches = some [] →
      (processResponse resp inputBranches).1 =
        { resp with branches := some inputBranches } ∧
      ∃ d, (processResponse resp inputBranches).2 = [d] ∧
        d.severity = .warning ∧ d.attributePath = some "branches") := by
  obtain ⟨b, rest⟩ := resp
  refine ⟨?_, ?_, ?_⟩
  · rintro rfl
    simp [processResponse]
  · rintro bs rfl hne
    simp [processResponse, List.length_eq_zero, hne]
  · rintro h
    obtain rfl : b = some [] := h
    exact ⟨rfl, _, rfl, rfl, rfl⟩

/-- Claim C8: when every destination returned by the API has a planned
destination with the same target URL and basic-auth user, the copy succeeds
and returns the destinations in order with only the password replaced by the
matching planned one; when any destination has no such counterpart, the copy
fails with an error. -/
theorem copyHttpBasicPasswords_matches (wd : List WebhookDestination)
    (data : List WebhookDestinationData) :
    ((∀ d ∈ wd, ∃ p ∈ data,
        p.targetURL = d.targetURL ∧ p.httpBasicAuth = d.httpBasicAuth) →
      ∃ cd, copyHttpBasicPasswords wd data = .ok cd ∧
        cd.length = wd.length ∧
        ∀ i (hi : i < wd.length), ∃ planned,
          FindByTargetURLAndHttpBasicAuth data (wd.get ⟨i, hi⟩).targetURL
              (wd.get ⟨i, hi⟩).httpBasicAuth = some planned ∧
          planned.targetURL = (wd.get ⟨i, hi⟩).targetURL ∧
          planned.httpBasicAuth = (wd.get ⟨i, hi⟩).httpBasicAuth ∧
          cd[i]? = some { wd.get ⟨i, hi⟩ with
            httpBasicPassword := planned.httpBasicPassword }) ∧
    ((∃ d ∈ wd, ∀ p ∈ data,
        ¬(p.targetURL = d.targetURL ∧ p.httpBasicAuth = d.httpBasicAuth)) →
      ∃ msg, copyHttpBasicPasswords wd data = .error msg) := by
  refine ⟨copyHttpBasicPasswords_ok_of_matches data wd, ?_⟩
  rintro ⟨d, hd, hnone⟩
  cases hres : copyHttpBasicPasswords wd data with
  | ok cd =>
      have hfound := copyHttpBasicPasswords_ok_all_found data wd cd hres d hd
      obtain ⟨p, hp, hpt, hpa⟩ := (find_isSome_iff data _ _).mp hfound
      exact absurd ⟨hpt, hpa⟩ (hnone p hp)
  | error msg => exact ⟨msg, rfl⟩

end Contentstack
